import Mathlib

/-!
A shallow embedding of the snippet storage layer of this repository
(file src/storage.js). That file holds two implementations of the
class StorageManager, called variant A (lines 5 to 142) and variant B
(lines 149 to 342); both are embedded below, in namespaces VA and VB.

Modelling conventions:
- A JS record is modelled by the structure Snippet: a field holding
  some v means the key is present with string value v, none means the
  key is absent. The tags key, which the source inspects with
  Array.isArray, gets the three-valued TagsField.
- localStorage is modelled by Slot: the stored slot is either missing
  (getItem returns null), present but unparseable (JSON.parse throws),
  or holds the serialization of a list of records. Since JSON.parse
  recovers the value passed to JSON.stringify, the slot stores the
  list of records itself rather than its serialized text.
- A call of localStorage.setItem may throw (for example on quota
  exhaustion); each operation that writes takes a Bool argument
  writeOk telling whether that write succeeds, and a failing setItem
  leaves the slot as it was. Date.now and the random suffix drawn
  from Math.random are likewise passed in as explicit arguments.
- String.toLowerCase and the default comparator of Array.sort are
  modelled per character on code points, which agrees with the source
  on the basic multilingual plane.
-/

/-- Presence and shape of the tags key of a record: absent, present but
not an array (Array.isArray is false), or an array of strings. -/
inductive TagsField where
  | absent
  | notArray
  | tags (ts : List String)
deriving DecidableEq

/-- A snippet record. Each optional field is none when the key is absent
and some v when it is present with string value v. -/
structure Snippet where
  id : Option String := none
  title : Option String := none
  language : Option String := none
  tags : TagsField := .absent
  description : Option String := none
  code : Option String := none
  createdAt : Option String := none
  updatedAt : Option String := none
deriving DecidableEq

/-- The localStorage slot under the storage key: missing, present but
not parseable as JSON, or holding the serialized list of records. -/
inductive Slot where
  | missing
  | corrupt
  | data (snippets : List Snippet)
deriving DecidableEq

/-- The state of a StorageManager: the in-memory cache this.snippets
together with the current content of the localStorage slot. -/
structure Store where
  snippets : List Snippet
  slot : Slot
deriving DecidableEq

/-- One field of the JS object spread: in the record literal with parts
a then b, a key of b overrides the same key of a. -/
def mergeField (a b : Option String) : Option String :=
  match b with
  | some v => some v
  | none => a

/-- Spread for the tags key: present in b (array or not) overrides. -/
def mergeTags (a b : TagsField) : TagsField :=
  match b with
  | .absent => a
  | t => t

/-- The JS record spread, as in the source expressions
of the shape with all keys of a, overridden by the keys of b. -/
def spread (a b : Snippet) : Snippet where
  id := mergeField a.id b.id
  title := mergeField a.title b.title
  language := mergeField a.language b.language
  tags := mergeTags a.tags b.tags
  description := mergeField a.description b.description
  code := mergeField a.code b.code
  createdAt := mergeField a.createdAt b.createdAt
  updatedAt := mergeField a.updatedAt b.updatedAt

/-- JS truthiness of an optional string value: an absent key and the
empty string are falsy, every other string is truthy. -/
def truthy : Option String → Bool
  | none => false
  | some s => s != ""

/-- Reading the slot as variant A getSnippets does (lines 37 to 45):
a missing slot and a parse error both give the empty collection. -/
def parseSlot : Slot → List Snippet
  | .missing => []
  | .corrupt => []
  | .data xs => xs

/-- A base 36 digit, 0 to 9 then a to z, as produced by the JS
Number.toString with radix 36. -/
def base36Digit (d : Nat) : Char :=
  if d < 10 then Char.ofNat (48 + d) else Char.ofNat (87 + d)

/-- Digits of n in base 36, most significant first, prepended to acc.
The first argument is fuel, always at least n, so the fuel branch with
fuel zero and n nonzero is unreachable. -/
def toBase36Go : Nat → Nat → List Char → List Char
  | 0, n, acc => base36Digit (n % 36) :: acc
  | fuel + 1, n, acc =>
    if n < 36 then base36Digit n :: acc
    else toBase36Go fuel (n / 36) (base36Digit (n % 36) :: acc)

/-- The JS expression n.toString(36) for a natural number n. -/
def toBase36 (n : Nat) : String := String.mk (toBase36Go n n [])

/-- The JS expression s.toLowerCase(), modelled per character. -/
def jsLower (s : String) : String := String.mk (s.data.map Char.toLower)

/-- Containment of one character list in another, the substring test
behind the JS method includes. -/
def isInfixOfCh (needle hay : List Char) : Bool :=
  match hay with
  | [] => needle.isEmpty
  | _ :: rest => needle.isPrefixOf hay || isInfixOfCh needle rest

/-- The JS expression hay.includes(needle) on strings. -/
def jsIncludes (hay needle : String) : Bool := isInfixOfCh needle.data hay.data

/-- Code point comparison of character lists, the order used by the
default comparator of Array.sort on strings. -/
def chLe : List Char → List Char → Bool
  | [], _ => true
  | _ :: _, [] => false
  | a :: as, b :: bs =>
    if a.toNat < b.toNat then true
    else if b.toNat < a.toNat then false
    else chLe as bs

/-- The string order of the default Array.sort comparator. -/
def strLe (a b : String) : Prop := chLe a.data b.data = true

instance : DecidableRel strLe := fun _ _ => inferInstanceAs (Decidable (_ = true))

/-- Insertion of the elements of ts into the accumulated list acc in
order, skipping elements already present: the effect of adding each
element of ts to a JS Set holding the elements of acc in insertion
order. Used by getAllTags in both variants. -/
def addTagsToSet (acc ts : List String) : List String :=
  ts.foldl (fun a t => if t ∈ a then a else a ++ [t]) acc

/-- The insertion ordered set of all tags of the collection, as built
by getAllTags of variant A (reduce over a Set, lines 132 to 141) and of
variant B (forEach over a Set, lines 309 to 321): records whose tags
key is absent or not an array contribute nothing. -/
def collectTags (snippets : List Snippet) : List String :=
  snippets.foldl
    (fun acc s =>
      match s.tags with
      | .tags ts => addTagsToSet acc ts
      | _ => acc)
    []

/-- One text field test of searchSnippets, the source expression of the
shape field && field.toLowerCase().includes(lowerQuery): an absent or
empty field is falsy and never matches. -/
def textIncludes (o : Option String) (lowerQuery : String) : Bool :=
  truthy o && jsIncludes (jsLower (o.getD "")) lowerQuery

/-- The tag test of searchSnippets, the source expression
snippet.tags && snippet.tags.some(tag => ...): an absent tags key is
falsy; a present key that is not an array would make the some call of
the source throw, so the theorems below exclude that case and this
embedding returns false there. -/
def tagsAnyIncludes (tf : TagsField) (lowerQuery : String) : Bool :=
  match tf with
  | .tags ts => ts.any (fun tag => jsIncludes (jsLower tag) lowerQuery)
  | _ => false

/-- The result of JSON.parse on an import payload that parsed: either
not an array, or an array of records. A payload on which JSON.parse
throws is modelled by none at the call sites. -/
inductive Parsed where
  | nonArray
  | arr (xs : List Snippet)
deriving DecidableEq

namespace VA

/-- Lines 15 to 23: try setItem and report the outcome; the cache is
not touched here. A failing setItem leaves the slot unchanged. -/
def _saveSnippets (snippets : List Snippet) (writeOk : Bool) (st : Store) : Bool × Store :=
  if writeOk then (true, { st with slot := .data snippets }) else (false, st)

/-- Lines 29 to 31: Date.now().toString(36) plus a random base 36
suffix; nowMs is the Date.now value and rand the random suffix. -/
def _generateId (nowMs : Nat) (rand : String) : String :=
  toBase36 nowMs ++ rand

/-- Lines 37 to 45: read and parse the slot; a missing slot and a parse
error both yield the empty collection, and nothing is written. -/
def getSnippets (st : Store) : List Snippet := parseSlot st.slot

/-- Lines 6 to 9: the constructor caches getSnippets of the slot. -/
def init (slot : Slot) : Store :=
  { snippets := parseSlot slot, slot := slot }

/-- Lines 52 to 60: build the record with generated id and createdAt
followed by the spread of the argument, push it onto the cache, then
save. The spread of the argument comes last, so its keys override. -/
def addSnippet (snippet : Snippet) (nowMs : Nat) (now : String) (rand : String)
    (writeOk : Bool) (st : Store) : Bool × Store :=
  let newSnippet :=
    spread { id := some (_generateId nowMs rand), createdAt := some now } snippet
  let snippets := st.snippets ++ [newSnippet]
  _saveSnippets snippets writeOk { st with snippets := snippets }

/-- Lines 77 to 84: find the first record with the given id, replace it
in place by the spread of the old record and the update argument, then
save. No updatedAt stamp is applied in this variant. -/
def updateSnippet (id : String) (updatedSnippet : Snippet) (writeOk : Bool)
    (st : Store) : Bool × Store :=
  match st.snippets.findIdx? (fun snippet => snippet.id == some id) with
  | none => (false, st)
  | some index =>
    match st.snippets.get? index with
    | none => (false, st)
    | some old =>
      let snippets := st.snippets.set index (spread old updatedSnippet)
      _saveSnippets snippets writeOk { st with snippets := snippets }

/-- Lines 91 to 95: reassign the cache to the filtered list, then save
only when the length dropped; on no match the conjunction short
circuits and no write is attempted. -/
def deleteSnippet (id : String) (writeOk : Bool) (st : Store) : Bool × Store :=
  let initialLength := st.snippets.length
  let snippets := st.snippets.filter (fun snippet => !(snippet.id == some id))
  let st := { st with snippets := snippets }
  if snippets.length < initialLength then _saveSnippets snippets writeOk st
  else (false, st)

/-- Line 117: every record must have truthy title, code and language. -/
def validRec (s : Snippet) : Bool :=
  truthy s.title && truthy s.code && truthy s.language

/-- Lines 101 to 103: serialize getSnippets of the slot, so this
variant exports a fresh read of the backend, not the cache. The JSON
text is modelled by the value it serializes. -/
def exportSnippets (st : Store) : List Snippet := getSnippets st

/-- Lines 110 to 126: on a parse error or a value that is not an array
return false; if any record fails validation return false; otherwise
assign the cache and save. -/
def importSnippets (jsonData : Option Parsed) (writeOk : Bool) (st : Store) :
    Bool × Store :=
  match jsonData with
  | none => (false, st)
  | some .nonArray => (false, st)
  | some (.arr importedSnippets) =>
    if importedSnippets.all validRec then
      _saveSnippets importedSnippets writeOk { st with snippets := importedSnippets }
    else (false, st)

/-- Lines 132 to 141: collect all tags of the cache into a Set, then
sort the resulting array ascending with the default comparator. -/
def getAllTags (st : Store) : List String :=
  List.insertionSort strLe (collectTags st.snippets)

end VA

namespace VB

/-- Lines 191 to 201: assign the cache first, then try setItem. On a
failing write the cache keeps the new value while the slot keeps the
old one. -/
def saveSnippets (snippets : List Snippet) (writeOk : Bool) (st : Store) : Bool × Store :=
  let st := { st with snippets := snippets }
  if writeOk then (true, { st with slot := .data snippets }) else (false, st)

/-- Lines 161 to 175: on a missing slot write the empty collection to
the slot (inside the try, so a failing write is swallowed) and return
the empty collection; a parse error also yields the empty collection
but writes nothing. -/
def _loadSnippets (slot : Slot) (writeOk : Bool) : List Snippet × Slot :=
  match slot with
  | .missing => if writeOk then ([], .data []) else ([], .missing)
  | .corrupt => ([], .corrupt)
  | .data xs => (xs, .data xs)

/-- Lines 150 to 154: the constructor caches the loaded collection. -/
def init (slot : Slot) (writeOk : Bool) : Store :=
  let r := _loadSnippets slot writeOk
  { snippets := r.1, slot := r.2 }

/-- Lines 181 to 183: the cache itself. -/
def getSnippets (st : Store) : List Snippet := st.snippets

/-- Lines 208 to 215: copy the cache, assign id to Date.now().toString()
and createdAt to the current time on the argument record, push, save.
The assignments overwrite any caller supplied id and createdAt, but a
caller supplied updatedAt is left in place. -/
def addSnippet (snippet : Snippet) (nowMs : Nat) (now : String) (writeOk : Bool)
    (st : Store) : Bool × Store :=
  let snippet := { snippet with id := some (Nat.repr nowMs), createdAt := some now }
  saveSnippets (getSnippets st ++ [snippet]) writeOk st

/-- Lines 223 to 244: map over the cache replacing every record whose
id matches by the spread of the record and the update argument with a
fresh updatedAt stamp appended last; save when a match was found. The
snippetFound flag set inside the map callback equals an any test. -/
def updateSnippet (id : String) (updatedSnippet : Snippet) (now : String)
    (writeOk : Bool) (st : Store) : Bool × Store :=
  let newSnippets := (getSnippets st).map
    (fun snippet =>
      if snippet.id == some id then
        { spread snippet updatedSnippet with updatedAt := some now }
      else snippet)
  if (getSnippets st).any (fun snippet => snippet.id == some id) then
    saveSnippets newSnippets writeOk st
  else (false, st)

/-- Lines 251 to 261: filter the cache; save only when the length
changed, otherwise return false and touch nothing. -/
def deleteSnippet (id : String) (writeOk : Bool) (st : Store) : Bool × Store :=
  let filteredSnippets := (getSnippets st).filter (fun snippet => !(snippet.id == some id))
  if (getSnippets st).length ≠ filteredSnippets.length then
    saveSnippets filteredSnippets writeOk st
  else (false, st)

/-- Lines 294 to 295: every record must have truthy title, language
and code. -/
def validRec (s : Snippet) : Bool :=
  truthy s.title && truthy s.language && truthy s.code

/-- Lines 277 to 280: serialize the cache. The JSON text is modelled by
the value it serializes. -/
def exportSnippets (st : Store) : List Snippet := getSnippets st

/-- Lines 287 to 303: on a parse error or a value that is not an array
return false; otherwise keep only the records passing validation and
save those, wholesale replacing the collection. -/
def importSnippets (jsonData : Option Parsed) (writeOk : Bool) (st : Store) :
    Bool × Store :=
  match jsonData with
  | none => (false, st)
  | some .nonArray => (false, st)
  | some (.arr snippetsToImport) =>
    saveSnippets (snippetsToImport.filter validRec) writeOk st

/-- Lines 309 to 321: collect all tags of the cache into a Set, then
sort the resulting array ascending with the default comparator. -/
def getAllTags (st : Store) : List String :=
  List.insertionSort strLe (collectTags st.snippets)

/-- Lines 328 to 341: keep the records where the lowercased query is
contained in the lowercased title, description, code, or some tag;
each text field only counts when present and truthy. A present tags
key that is not an array would make the some call of the source throw,
so that case is excluded by the theorems below. -/
def searchSnippets (query : String) (st : Store) : List Snippet :=
  let lowerQuery := jsLower query
  (getSnippets st).filter
    (fun snippet =>
      textIncludes snippet.title lowerQuery
        || textIncludes snippet.description lowerQuery
        || textIncludes snippet.code lowerQuery
        || tagsAnyIncludes snippet.tags lowerQuery)

end VB

/-!
Theorems settling the claims. Counterexamples and the code bug
demonstration are closed evaluations of the embedded operations at
concrete inputs; the amended claims are proved afterwards.
-/

/-- Claim C1, counterexample: in variant B two snippets created by
consecutive add calls within the same millisecond receive the very
same id (the bare decimal Date.now value), so the ids of the resulting
collection are not pairwise distinct. -/
theorem c1_counterexample :
    ((VB.addSnippet { title := some "b" } 1700 "t2" true
        (VB.addSnippet { title := some "a" } 1700 "t1" true ⟨[], Slot.data []⟩).2).2.snippets.map
      Snippet.id) = [some "1700", some "1700"] ∧
    ¬ (((VB.addSnippet { title := some "b" } 1700 "t2" true
        (VB.addSnippet { title := some "a" } 1700 "t1" true ⟨[], Slot.data []⟩).2).2.snippets.map
      Snippet.id).Nodup) := by decide

/-- Claim C2: a mutation whose backend write fails leaves the cache
holding the new record while the slot still holds the old collection,
in both variants; no rollback happens, so list would show content a
reload would not reproduce. The final conjuncts record that after a
successful mutation cache and slot do agree. -/
theorem c2_failed_write_keeps_cache :
    (VA.addSnippet { title := some "t", language := some "js", code := some "c" } 5 "now" "rr"
      false ⟨[], Slot.data []⟩).1 = false ∧
    (VA.addSnippet { title := some "t", language := some "js", code := some "c" } 5 "now" "rr"
      false ⟨[], Slot.data []⟩).2.snippets.length = 1 ∧
    (VA.addSnippet { title := some "t", language := some "js", code := some "c" } 5 "now" "rr"
      false ⟨[], Slot.data []⟩).2.slot = Slot.data [] ∧
    (VB.addSnippet { title := some "t", language := some "js", code := some "c" } 5 "now"
      false ⟨[], Slot.data []⟩).1 = false ∧
    (VB.addSnippet { title := some "t", language := some "js", code := some "c" } 5 "now"
      false ⟨[], Slot.data []⟩).2.snippets.length = 1 ∧
    (VB.addSnippet { title := some "t", language := some "js", code := some "c" } 5 "now"
      false ⟨[], Slot.data []⟩).2.slot = Slot.data [] ∧
    (VA.addSnippet { title := some "t", language := some "js", code := some "c" } 5 "now" "rr"
      true ⟨[], Slot.data []⟩).2.slot
      = Slot.data (VA.addSnippet { title := some "t", language := some "js", code := some "c" }
          5 "now" "rr" true ⟨[], Slot.data []⟩).2.snippets ∧
    (VB.addSnippet { title := some "t", language := some "js", code := some "c" } 5 "now"
      true ⟨[], Slot.data []⟩).2.slot
      = Slot.data (VB.addSnippet { title := some "t", language := some "js", code := some "c" }
          5 "now" true ⟨[], Slot.data []⟩).2.snippets := by decide

/-- Claim C3, counterexample: an update whose fields argument carries
id and createdAt overwrites both stored values, because the spread of
the argument comes last in both variants; shown here on variant B. -/
theorem c3_counterexample :
    (VB.updateSnippet "s1" { id := some "hacked", createdAt := some "c9" } "u1" true
      ⟨[{ id := some "s1", title := some "old", createdAt := some "c0" }],
        Slot.data [{ id := some "s1", title := some "old", createdAt := some "c0" }]⟩).1 = true ∧
    (VB.updateSnippet "s1" { id := some "hacked", createdAt := some "c9" } "u1" true
      ⟨[{ id := some "s1", title := some "old", createdAt := some "c0" }],
        Slot.data [{ id := some "s1", title := some "old", createdAt := some "c0" }]⟩).2.snippets.map
      Snippet.id = [some "hacked"] ∧
    (VB.updateSnippet "s1" { id := some "hacked", createdAt := some "c9" } "u1" true
      ⟨[{ id := some "s1", title := some "old", createdAt := some "c0" }],
        Slot.data [{ id := some "s1", title := some "old", createdAt := some "c0" }]⟩).2.snippets.map
      Snippet.createdAt = [some "c9"] := by decide

/-- Claim C4, counterexample: variant B importSnippets on the payload
of one record holding only a title returns true, not false, and it
wholesale replaces the prior collection by the empty list in cache and
backend, so the prior collection is not left untouched. -/
theorem c4_counterexample :
    (VB.importSnippets (some (Parsed.arr [{ title := some "t" }])) true
      ⟨[{ id := some "p", title := some "keep", language := some "js", code := some "x" }],
        Slot.data [{ id := some "p", title := some "keep", language := some "js", code := some "x" }]⟩)
      = (true, ⟨[], Slot.data []⟩) := by decide

/-- Claim C5, counterexample: in variant A the spread of the caller
argument comes after the generated fields, so a caller supplied id and
createdAt end up in the stored record; in variant B a caller supplied
updatedAt is stored untouched. -/
theorem c5_counterexample :
    (VA.addSnippet { id := some "mine", createdAt := some "then", title := some "t" } 7 "n7" "rd"
      true ⟨[], Slot.data []⟩).2.snippets.map Snippet.id = [some "mine"] ∧
    (VA.addSnippet { id := some "mine", createdAt := some "then", title := some "t" } 7 "n7" "rd"
      true ⟨[], Slot.data []⟩).2.snippets.map Snippet.createdAt = [some "then"] ∧
    (VB.addSnippet { updatedAt := some "u0", title := some "t" } 7 "n7"
      true ⟨[], Slot.data []⟩).2.snippets.map Snippet.updatedAt = [some "u0"] := by decide

/-- Claim C6, counterexample: constructing variant A on an absent slot
returns the empty collection but writes nothing, so the backend slot
is still missing afterwards instead of holding the persisted empty
collection. -/
theorem c6_counterexample :
    VA.init Slot.missing = ⟨[], Slot.missing⟩ ∧ Slot.missing ≠ Slot.data [] := by decide

/-- Claim C6, amended: on an absent slot both variants initialize with
the empty collection and a reload again yields the empty collection;
variant B immediately persists the empty collection while variant A
writes nothing and leaves the slot absent, a reload merely reading the
absent slot as empty again. -/
theorem c6_amended :
    VB.init Slot.missing true = ⟨[], Slot.data []⟩ ∧
    VB.init ((VB.init Slot.missing true).slot) true = ⟨[], Slot.data []⟩ ∧
    VA.init Slot.missing = ⟨[], Slot.missing⟩ ∧
    (VA.init ((VA.init Slot.missing).slot)).snippets = [] := by decide

/-- Claim C7, counterexample: on a collection holding a record with an
empty title, the variant B round trip of import after export returns
true yet replaces the collection by the empty list, because import
silently filters out records failing validation. -/
theorem c7_counterexample :
    (VB.importSnippets
      (some (Parsed.arr (VB.exportSnippets
        ⟨[{ id := some "b1", title := some "", language := some "js", code := some "x" }],
          Slot.data [{ id := some "b1", title := some "", language := some "js", code := some "x" }]⟩)))
      true
      ⟨[{ id := some "b1", title := some "", language := some "js", code := some "x" }],
        Slot.data [{ id := some "b1", title := some "", language := some "js", code := some "x" }]⟩)
      = (true, ⟨[], Slot.data []⟩) := by decide

/-- Claim C8, counterexample: the empty query does not match a snippet
whose title and code are present but empty and whose description and
tags are absent, because every field test of the source first requires
the field to be truthy; the claim would have search return the whole
collection. -/
theorem c8_counterexample :
    VB.searchSnippets ""
      ⟨[{ id := some "e1", title := some "", language := some "js", code := some "" }],
        Slot.data [{ id := some "e1", title := some "", language := some "js", code := some "" }]⟩
      = [] := by decide

/-!
Helper lemmas about the embedded operations, shared by several claims.
-/

theorem mergeField_none (a : Option String) : mergeField a none = a := rfl

theorem mergeField_ite (a b : Option String) : mergeField a b = if b.isSome then b else a := by
  cases b <;> rfl

theorem mergeTags_ite (a b : TagsField) :
    mergeTags a b = if b = TagsField.absent then a else b := by
  cases b <;> rfl

theorem filter_no_match {l : List Snippet} {id : String} (h : ∀ s ∈ l, s.id ≠ some id) :
    l.filter (fun snippet => !(snippet.id == some id)) = l :=
  List.filter_eq_self.mpr fun s hs => by simpa using h s hs

theorem VA_delete_snippets (id : String) (w : Bool) (st : Store) :
    (VA.deleteSnippet id w st).2.snippets
      = st.snippets.filter (fun snippet => !(snippet.id == some id)) := by
  simp only [VA.deleteSnippet, VA._saveSnippets]
  split
  · split <;> rfl
  · rfl

theorem VA_delete_no_match {st : Store} {id : String} {w : Bool}
    (h : ∀ s ∈ st.snippets, s.id ≠ some id) :
    VA.deleteSnippet id w st = (false, st) := by
  simp only [VA.deleteSnippet, VA._saveSnippets, filter_no_match h]
  rw [if_neg (Nat.lt_irrefl _)]

theorem VA_delete_after (id : String) (w : Bool) (st : Store) :
    ∀ s ∈ (VA.deleteSnippet id w st).2.snippets, s.id ≠ some id := by
  rw [VA_delete_snippets]
  intro s hs
  simpa using List.of_mem_filter hs

theorem VB_save_parts (xs : List Snippet) (w : Bool) (st : Store) :
    (VB.saveSnippets xs w st).1 = w ∧ (VB.saveSnippets xs w st).2.snippets = xs := by
  cases w <;> simp [VB.saveSnippets]

theorem VB_delete_no_match {st : Store} {id : String} {w : Bool}
    (h : ∀ s ∈ st.snippets, s.id ≠ some id) :
    VB.deleteSnippet id w st = (false, st) := by
  simp only [VB.deleteSnippet, VB.getSnippets, filter_no_match h]
  rw [if_neg (fun hh => hh rfl)]

theorem VB_delete_after (id : String) (w : Bool) (st : Store) :
    ∀ s ∈ (VB.deleteSnippet id w st).2.snippets, s.id ≠ some id := by
  simp only [VB.deleteSnippet, VB.getSnippets]
  split
  · intro s hs
    rw [(VB_save_parts _ w st).2] at hs
    simpa using List.of_mem_filter hs
  · rename_i hcond
    intro s hs
    have hlen : (st.snippets.filter (fun snippet => !(snippet.id == some id))).length
        = st.snippets.length := by omega
    have hall := List.filter_length_eq_length.mp hlen
    simpa using hall s hs

/-- Claim C9: deleting an id with no matching record returns failure
and leaves cache and slot untouched in both variants, and a second
delete of the same id right after a first one returns failure with the
store unchanged from after the first call. -/
theorem c9_delete_idempotent (st : Store) (id : String) (w w2 : Bool)
    (hno : ∀ s ∈ st.snippets, s.id ≠ some id) :
    VA.deleteSnippet id w st = (false, st) ∧
    VB.deleteSnippet id w st = (false, st) ∧
    (∀ st0 : Store, VA.deleteSnippet id w2 (VA.deleteSnippet id w st0).2
        = (false, (VA.deleteSnippet id w st0).2)) ∧
    (∀ st0 : Store, VB.deleteSnippet id w2 (VB.deleteSnippet id w st0).2
        = (false, (VB.deleteSnippet id w st0).2)) := by
  refine ⟨VA_delete_no_match hno, VB_delete_no_match hno, ?_, ?_⟩
  · intro st0
    exact VA_delete_no_match (VA_delete_after id w st0)
  · intro st0
    exact VB_delete_no_match (VB_delete_after id w st0)

/-- Claim C9, witness: a concrete store holding one record and an id
matching nothing. -/
theorem c9_delete_idempotent_witness :
    VA.deleteSnippet "zz" true ⟨[{ id := some "a" }], Slot.data [{ id := some "a" }]⟩
      = (false, ⟨[{ id := some "a" }], Slot.data [{ id := some "a" }]⟩) ∧
    VB.deleteSnippet "zz" true ⟨[{ id := some "a" }], Slot.data [{ id := some "a" }]⟩
      = (false, ⟨[{ id := some "a" }], Slot.data [{ id := some "a" }]⟩) ∧
    (∀ st0 : Store, VA.deleteSnippet "zz" false (VA.deleteSnippet "zz" true st0).2
        = (false, (VA.deleteSnippet "zz" true st0).2)) ∧
    (∀ st0 : Store, VB.deleteSnippet "zz" false (VB.deleteSnippet "zz" true st0).2
        = (false, (VB.deleteSnippet "zz" true st0).2)) :=
  c9_delete_idempotent ⟨[{ id := some "a" }], Slot.data [{ id := some "a" }]⟩ "zz" true false
    (by decide)

theorem mem_addTagsToSet {x : String} : ∀ (ts acc : List String),
    x ∈ addTagsToSet acc ts ↔ x ∈ acc ∨ x ∈ ts := by
  intro ts
  induction ts with
  | nil => intro acc; simp [addTagsToSet]
  | cons t ts ih =>
    intro acc
    show x ∈ addTagsToSet (if t ∈ acc then acc else acc ++ [t]) ts ↔ _
    rw [ih]
    by_cases h : t ∈ acc
    · rw [if_pos h]
      constructor
      · rintro (hx | hx)
        · exact Or.inl hx
        · exact Or.inr (List.mem_cons_of_mem _ hx)
      · rintro (hx | hx)
        · exact Or.inl hx
        · rcases List.mem_cons.mp hx with rfl | hx
          · exact Or.inl h
          · exact Or.inr hx
    · rw [if_neg h]
      simp only [List.mem_append, List.mem_singleton, List.mem_cons]
      tauto

theorem nodup_addTagsToSet : ∀ (ts acc : List String),
    acc.Nodup → (addTagsToSet acc ts).Nodup := by
  intro ts
  induction ts with
  | nil => intro acc h; exact h
  | cons t ts ih =>
    intro acc h
    show (addTagsToSet (if t ∈ acc then acc else acc ++ [t]) ts).Nodup
    by_cases hm : t ∈ acc
    · rw [if_pos hm]; exact ih acc h
    · rw [if_neg hm]
      refine ih _ ?_
      rw [← List.concat_eq_append]
      exact List.Nodup.concat hm h

theorem mem_collectTags_gen {x : String} : ∀ (l : List Snippet) (acc : List String),
    x ∈ l.foldl
        (fun acc s =>
          match s.tags with
          | .tags ts => addTagsToSet acc ts
          | _ => acc)
        acc
      ↔ x ∈ acc ∨ ∃ s ∈ l, ∃ ts, s.tags = TagsField.tags ts ∧ x ∈ ts := by
  intro l
  induction l with
  | nil => intro acc; simp
  | cons s l ih =>
    intro acc
    rw [List.foldl_cons, ih]
    cases hs : s.tags with
    | tags ts =>
      rw [mem_addTagsToSet]
      constructor
      · rintro ((hx | hx) | ⟨u, hu, ts2, hts2, hxts⟩)
        · exact Or.inl hx
        · exact Or.inr ⟨s, List.mem_cons_self s l, ts, hs, hx⟩
        · exact Or.inr ⟨u, List.mem_cons_of_mem _ hu, ts2, hts2, hxts⟩
      · rintro (hx | ⟨u, hu, ts2, hts2, hxts⟩)
        · exact Or.inl (Or.inl hx)
        · rcases List.mem_cons.mp hu with rfl | hu
          · rw [hs] at hts2
            injection hts2 with he
            subst he
            exact Or.inl (Or.inr hxts)
          · exact Or.inr ⟨u, hu, ts2, hts2, hxts⟩
    | absent =>
      constructor
      · rintro (hx | ⟨u, hu, ts2, hts2, hxts⟩)
        · exact Or.inl hx
        · exact Or.inr ⟨u, List.mem_cons_of_mem _ hu, ts2, hts2, hxts⟩
      · rintro (hx | ⟨u, hu, ts2, hts2, hxts⟩)
        · exact Or.inl hx
        · rcases List.mem_cons.mp hu with rfl | hu
          · rw [hs] at hts2; cases hts2
          · exact Or.inr ⟨u, hu, ts2, hts2, hxts⟩
    | notArray =>
      constructor
      · rintro (hx | ⟨u, hu, ts2, hts2, hxts⟩)
        · exact Or.inl hx
        · exact Or.inr ⟨u, List.mem_cons_of_mem _ hu, ts2, hts2, hxts⟩
      · rintro (hx | ⟨u, hu, ts2, hts2, hxts⟩)
        · exact Or.inl hx
        · rcases List.mem_cons.mp hu with rfl | hu
          · rw [hs] at hts2; cases hts2
          · exact Or.inr ⟨u, hu, ts2, hts2, hxts⟩

theorem mem_collectTags {x : String} (l : List Snippet) :
    x ∈ collectTags l ↔ ∃ s ∈ l, ∃ ts, s.tags = TagsField.tags ts ∧ x ∈ ts := by
  rw [collectTags, mem_collectTags_gen]
  simp

theorem nodup_collectTags_gen : ∀ (l : List Snippet) (acc : List String),
    acc.Nodup →
    (l.foldl
        (fun acc s =>
          match s.tags with
          | .tags ts => addTagsToSet acc ts
          | _ => acc)
        acc).Nodup := by
  intro l
  induction l with
  | nil => intro acc h; exact h
  | cons s l ih =>
    intro acc h
    rw [List.foldl_cons]
    cases hs : s.tags with
    | tags ts => exact ih _ (nodup_addTagsToSet ts acc h)
    | absent => exact ih _ h
    | notArray => exact ih _ h

theorem nodup_collectTags (l : List Snippet) : (collectTags l).Nodup :=
  nodup_collectTags_gen l [] List.nodup_nil

theorem chLe_total : ∀ (a b : List Char), chLe a b = true ∨ chLe b a = true := by
  intro a
  induction a with
  | nil => intro b; exact Or.inl rfl
  | cons x as ih =>
    intro b
    cases b with
    | nil => exact Or.inr rfl
    | cons y bs =>
      simp only [chLe]
      rcases Nat.lt_trichotomy x.toNat y.toNat with h | h | h
      · left; rw [if_pos h]
      · simp only [h, Nat.lt_irrefl, if_false]
        exact ih bs
      · right; rw [if_pos h]

theorem chLe_trans : ∀ (a b c : List Char),
    chLe a b = true → chLe b c = true → chLe a c = true := by
  intro a
  induction a with
  | nil => intro b c _ _; rfl
  | cons x as ih =>
    intro b c h1 h2
    cases b with
    | nil => exact absurd h1 (by simp [chLe])
    | cons y bs =>
      cases c with
      | nil => exact absurd h2 (by simp [chLe])
      | cons z cs =>
        simp only [chLe] at h1 h2 ⊢
        by_cases hxy : x.toNat < y.toNat
        · by_cases hyz : y.toNat < z.toNat
          · rw [if_pos (by omega)]
          · rw [if_neg hyz] at h2
            by_cases hzy : z.toNat < y.toNat
            · rw [if_pos hzy] at h2; exact absurd h2 (by simp)
            · rw [if_pos (by omega)]
        · rw [if_neg hxy] at h1
          by_cases hyx : y.toNat < x.toNat
          · rw [if_pos hyx] at h1; exact absurd h1 (by simp)
          · rw [if_neg hyx] at h1
            by_cases hyz : y.toNat < z.toNat
            · rw [if_pos (by omega)]
            · rw [if_neg hyz] at h2
              by_cases hzy : z.toNat < y.toNat
              · rw [if_pos hzy] at h2; exact absurd h2 (by simp)
              · rw [if_neg hzy] at h2
                rw [if_neg (by omega), if_neg (by omega)]
                exact ih bs cs h1 h2

instance : IsTotal String strLe :=
  ⟨fun a b => chLe_total a.data b.data⟩

instance : IsTrans String strLe :=
  ⟨fun a b c h1 h2 => chLe_trans a.data b.data c.data h1 h2⟩

/-- Claim C10: getAllTags returns a list that is sorted ascending in
the code point string order, has no duplicates, and holds exactly the
tags occurring in some record whose tags key is an array; records with
an absent or non array tags key contribute nothing. Both variants
agree, and the concrete example of the specification evaluates as
stated. -/
theorem c10_getAllTags (st : Store) :
    List.Sorted strLe (VA.getAllTags st) ∧
    (VA.getAllTags st).Nodup ∧
    (∀ t, t ∈ VA.getAllTags st ↔ ∃ s ∈ st.snippets, ∃ ts, s.tags = TagsField.tags ts ∧ t ∈ ts) ∧
    VB.getAllTags st = VA.getAllTags st ∧
    VA.getAllTags ⟨[{ tags := TagsField.tags ["b", "a"] }, { tags := TagsField.tags ["a", "c"] }],
      Slot.data []⟩ = ["a", "b", "c"] := by
  refine ⟨List.sorted_insertionSort strLe _, ?_, ?_, rfl, by decide⟩
  · exact ((List.perm_insertionSort strLe _).nodup_iff).mpr (nodup_collectTags _)
  · intro t
    exact ((List.perm_insertionSort strLe _).mem_iff).trans (mem_collectTags _)

theorem mergeField_noneLeft (b : Option String) : mergeField none b = b := by
  cases b <;> rfl

theorem mergeTags_absentLeft (b : TagsField) : mergeTags TagsField.absent b = b := by
  cases b <;> rfl

theorem VA_add_snippets (s : Snippet) (nowMs : Nat) (now rand : String) (w : Bool) (st : Store) :
    (VA.addSnippet s nowMs now rand w st).2.snippets
      = st.snippets
        ++ [spread { id := some (VA._generateId nowMs rand), createdAt := some now } s] := by
  cases w <;> rfl

/-- Claim C1, amended: in variant A two consecutive add calls in the
same millisecond append records with distinct ids provided the random
suffixes drawn differ (so uniqueness holds with high probability but
is not guaranteed); in variant B two adds in the same millisecond
receive identical ids, as the counterexample shows. -/
theorem c1_amended (st : Store) (s1 s2 : Snippet) (nowMs : Nat) (now1 now2 r1 r2 : String)
    (w1 w2 : Bool) (h1 : s1.id = none) (h2 : s2.id = none) (hr : r1 ≠ r2) :
    ((VA.addSnippet s2 nowMs now2 r2 w2 (VA.addSnippet s1 nowMs now1 r1 w1 st).2).2.snippets.map
        Snippet.id)
      = st.snippets.map Snippet.id
        ++ [some (VA._generateId nowMs r1), some (VA._generateId nowMs r2)] ∧
    VA._generateId nowMs r1 ≠ VA._generateId nowMs r2 := by
  constructor
  · rw [VA_add_snippets, VA_add_snippets]
    have e1 : (spread { id := some (VA._generateId nowMs r1), createdAt := some now1 } s1).id
        = some (VA._generateId nowMs r1) := by
      show mergeField (some _) s1.id = _
      rw [h1]
      rfl
    have e2 : (spread { id := some (VA._generateId nowMs r2), createdAt := some now2 } s2).id
        = some (VA._generateId nowMs r2) := by
      show mergeField (some _) s2.id = _
      rw [h2]
      rfl
    simp [e1, e2]
  · intro he
    simp only [VA._generateId] at he
    have hd := congrArg String.data he
    rw [String.data_append, String.data_append] at hd
    exact hr (String.ext (List.append_cancel_left hd))

/-- Claim C1, amended, witness: a concrete pair of adds in millisecond
zero with distinct random suffixes. -/
theorem c1_amended_witness :
    ((VA.addSnippet { title := some "b" } 0 "n" "y" true
        (VA.addSnippet { title := some "a" } 0 "n" "x" true
          (Store.mk [] (Slot.data []))).2).2.snippets.map Snippet.id)
      = (Store.mk [] (Slot.data [])).snippets.map Snippet.id
        ++ [some (VA._generateId 0 "x"), some (VA._generateId 0 "y")] ∧
    VA._generateId 0 "x" ≠ VA._generateId 0 "y" :=
  c1_amended (Store.mk [] (Slot.data [])) { title := some "a" } { title := some "b" } 0 "n" "n"
    "x" "y" true true rfl rfl (by decide)

/-- Claim C4, amended: variant A behaves exactly as the claim states,
returning false with no mutation when parsing fails, when the parsed
value is not an array, and when some record fails validation; variant
B returns false with no mutation only in the first two cases, while a
record failing validation is silently dropped and the surviving
records wholesale replace the collection with the persist outcome
returned. -/
theorem c4_amended :
    (∀ (w : Bool) (st : Store), VA.importSnippets none w st = (false, st)) ∧
    (∀ (w : Bool) (st : Store), VA.importSnippets (some Parsed.nonArray) w st = (false, st)) ∧
    (∀ (w : Bool) (st : Store) (xs : List Snippet), xs.all VA.validRec = false →
      VA.importSnippets (some (Parsed.arr xs)) w st = (false, st)) ∧
    (∀ (w : Bool) (st : Store), VB.importSnippets none w st = (false, st)) ∧
    (∀ (w : Bool) (st : Store), VB.importSnippets (some Parsed.nonArray) w st = (false, st)) ∧
    (∀ (st : Store) (xs : List Snippet),
      VB.importSnippets (some (Parsed.arr xs)) true st
        = (true, ⟨xs.filter VB.validRec, Slot.data (xs.filter VB.validRec)⟩)) := by
  refine ⟨fun w st => rfl, fun w st => rfl, ?_, fun w st => rfl, fun w st => rfl,
    fun st xs => rfl⟩
  intro w st xs h
  simp [VA.importSnippets, h]

/-- Claim C4, amended, witness: the payload of one record holding only
a title is rejected by variant A with the store untouched. -/
theorem c4_amended_witness :
    VA.importSnippets (some (Parsed.arr [{ title := some "t" }])) true
      (Store.mk [] (Slot.data [])) = (false, Store.mk [] (Slot.data [])) :=
  c4_amended.2.2.1 true (Store.mk [] (Slot.data [])) [{ title := some "t" }] (by decide)

/-- Claim C5, amended: variant B add overwrites a caller supplied id
and createdAt with the store generated values but stores a caller
supplied updatedAt untouched; in variant A the generated id and
createdAt only apply when the caller did not supply those keys, a
supplied value overriding the generated one. All remaining fields are
stored as supplied in both variants. -/
theorem c5_amended (s : Snippet) (nowMs : Nat) (now rand : String) (w : Bool) (st : Store) :
    (∃ n, (VB.addSnippet s nowMs now w st).2.snippets = st.snippets ++ [n] ∧
      n.id = some (Nat.repr nowMs) ∧ n.createdAt = some now ∧ n.updatedAt = s.updatedAt ∧
      n.title = s.title ∧ n.language = s.language ∧ n.tags = s.tags ∧
      n.description = s.description ∧ n.code = s.code) ∧
    (∃ m, (VA.addSnippet s nowMs now rand w st).2.snippets = st.snippets ++ [m] ∧
      m.id = (if s.id.isSome then s.id else some (VA._generateId nowMs rand)) ∧
      m.createdAt = (if s.createdAt.isSome then s.createdAt else some now) ∧
      m.updatedAt = s.updatedAt ∧ m.title = s.title ∧ m.language = s.language ∧
      m.tags = s.tags ∧ m.description = s.description ∧ m.code = s.code) := by
  constructor
  · refine ⟨{ s with id := some (Nat.repr nowMs), createdAt := some now }, ?_, rfl, rfl, rfl,
      rfl, rfl, rfl, rfl, rfl⟩
    show (VB.saveSnippets _ w st).2.snippets = _
    exact (VB_save_parts _ w st).2
  · refine ⟨spread { id := some (VA._generateId nowMs rand), createdAt := some now } s,
      VA_add_snippets s nowMs now rand w st, ?_, ?_, ?_, ?_, ?_, ?_, ?_, ?_⟩
    · show mergeField (some (VA._generateId nowMs rand)) s.id = _
      rw [mergeField_ite]
    · show mergeField (some now) s.createdAt = _
      rw [mergeField_ite]
    · exact mergeField_noneLeft s.updatedAt
    · exact mergeField_noneLeft s.title
    · exact mergeField_noneLeft s.language
    · exact mergeTags_absentLeft s.tags
    · exact mergeField_noneLeft s.description
    · exact mergeField_noneLeft s.code

theorem validRec_eq (s : Snippet) : VB.validRec s = VA.validRec s := by
  simp only [VA.validRec, VB.validRec, Bool.and_assoc]
  rw [Bool.and_comm (truthy s.language) (truthy s.code)]

theorem filter_valid_of_all {l : List Snippet} (h : l.all VA.validRec = true) :
    l.filter VB.validRec = l :=
  List.filter_eq_self.mpr fun s hs => by
    rw [validRec_eq]
    exact List.all_eq_true.mp h s hs

/-- Claim C7, amended: provided every record of the collection has
truthy title, language and code, the round trip of import after export
succeeds and leaves the collection unchanged; in variant A the backend
slot must additionally agree with the cache, because export of that
variant serializes a fresh read of the backend rather than the cache. -/
theorem c7_amended (st : Store) (hv : st.snippets.all VA.validRec = true) :
    ((VB.importSnippets (some (Parsed.arr (VB.exportSnippets st))) true st).1 = true ∧
     (VB.importSnippets (some (Parsed.arr (VB.exportSnippets st))) true st).2.snippets
        = st.snippets) ∧
    (st.slot = Slot.data st.snippets →
      VA.importSnippets (some (Parsed.arr (VA.exportSnippets st))) true st = (true, st)) := by
  refine ⟨⟨?_, ?_⟩, ?_⟩
  · simp only [VB.importSnippets, VB.exportSnippets, VB.getSnippets]
    exact (VB_save_parts _ true st).1
  · simp only [VB.importSnippets, VB.exportSnippets, VB.getSnippets]
    rw [(VB_save_parts _ true st).2, filter_valid_of_all hv]
  · obtain ⟨sn, sl⟩ := st
    intro hA
    simp only at hA
    subst hA
    simp only at hv
    simp [VA.importSnippets, VA.exportSnippets, VA.getSnippets, parseSlot, hv, VA._saveSnippets]

/-- Claim C7, amended, witness: a concrete collection of one valid
record agreeing with its slot round trips unchanged in both variants. -/
theorem c7_amended_witness :
    ((VB.importSnippets
        (some (Parsed.arr (VB.exportSnippets
          (Store.mk [{ id := some "a", title := some "t", language := some "js", code := some "c" }]
            (Slot.data [{ id := some "a", title := some "t", language := some "js", code := some "c" }])))))
        true
        (Store.mk [{ id := some "a", title := some "t", language := some "js", code := some "c" }]
          (Slot.data [{ id := some "a", title := some "t", language := some "js", code := some "c" }]))).1
        = true ∧
     (VB.importSnippets
        (some (Parsed.arr (VB.exportSnippets
          (Store.mk [{ id := some "a", title := some "t", language := some "js", code := some "c" }]
            (Slot.data [{ id := some "a", title := some "t", language := some "js", code := some "c" }])))))
        true
        (Store.mk [{ id := some "a", title := some "t", language := some "js", code := some "c" }]
          (Slot.data [{ id := some "a", title := some "t", language := some "js", code := some "c" }]))).2.snippets
        = (Store.mk [{ id := some "a", title := some "t", language := some "js", code := some "c" }]
            (Slot.data [{ id := some "a", title := some "t", language := some "js", code := some "c" }])).snippets) ∧
    ((Store.mk [{ id := some "a", title := some "t", language := some "js", code := some "c" }]
        (Slot.data [{ id := some "a", title := some "t", language := some "js", code := some "c" }])).slot
      = Slot.data (Store.mk [{ id := some "a", title := some "t", language := some "js", code := some "c" }]
          (Slot.data [{ id := some "a", title := some "t", language := some "js", code := some "c" }])).snippets →
      VA.importSnippets
        (some (Parsed.arr (VA.exportSnippets
          (Store.mk [{ id := some "a", title := some "t", language := some "js", code := some "c" }]
            (Slot.data [{ id := some "a", title := some "t", language := some "js", code := some "c" }])))))
        true
        (Store.mk [{ id := some "a", title := some "t", language := some "js", code := some "c" }]
          (Slot.data [{ id := some "a", title := some "t", language := some "js", code := some "c" }]))
        = (true,
            Store.mk [{ id := some "a", title := some "t", language := some "js", code := some "c" }]
              (Slot.data [{ id := some "a", title := some "t", language := some "js", code := some "c" }]))) :=
  c7_amended
    (Store.mk [{ id := some "a", title := some "t", language := some "js", code := some "c" }]
      (Slot.data [{ id := some "a", title := some "t", language := some "js", code := some "c" }]))
    (by decide)

theorem map_nomatch {l : List Snippet} {tid : String} {g : Snippet → Snippet}
    (h : ∀ u ∈ l, u.id ≠ some tid) :
    l.map (fun x => if x.id == some tid then g x else x) = l := by
  have hc : ∀ x ∈ l, (fun x => if x.id == some tid then g x else x) x = x := by
    intro x hx
    have hb : (x.id == some tid) = false := by simpa using h x hx
    simp [hb]
  rw [List.map_congr_left hc, List.map_id']

/-- Claim C3, amended: provided the fields argument carries neither id
nor createdAt, variant B update leaves id and createdAt of the matched
record unchanged, overwrites exactly the supplied fields, stamps
updatedAt with the current time, preserves the record position and all
other records, and returns the persist outcome; a supplied id or
createdAt would override the stored value as the counterexample shows,
and variant A performs the same merge without stamping updatedAt. -/
theorem c3_amended (pre post : List Snippet) (s : Snippet) (tid : String) (upd : Snippet)
    (now : String) (w : Bool) (st : Store)
    (hst : st.snippets = pre ++ s :: post)
    (hsid : s.id = some tid)
    (hpre : ∀ u ∈ pre, u.id ≠ some tid)
    (hpost : ∀ u ∈ post, u.id ≠ some tid)
    (hid : upd.id = none) (hca : upd.createdAt = none) :
    ((VB.updateSnippet tid upd now w st).1 = w ∧
     ∃ s2, (VB.updateSnippet tid upd now w st).2.snippets = pre ++ s2 :: post ∧
       s2.id = s.id ∧ s2.createdAt = s.createdAt ∧ s2.updatedAt = some now ∧
       s2.title = (if upd.title.isSome then upd.title else s.title) ∧
       s2.language = (if upd.language.isSome then upd.language else s.language) ∧
       s2.description = (if upd.description.isSome then upd.description else s.description) ∧
       s2.code = (if upd.code.isSome then upd.code else s.code) ∧
       s2.tags = (if upd.tags = TagsField.absent then s.tags else upd.tags)) ∧
    (∀ (slot2 : Slot) (w2 : Bool), upd.updatedAt = none →
      ∃ s3, (VA.updateSnippet tid upd w2 (Store.mk [s] slot2)).2.snippets = [s3] ∧
        s3.id = s.id ∧ s3.createdAt = s.createdAt ∧ s3.updatedAt = s.updatedAt) := by
  have hfound : (VB.getSnippets st).any (fun snippet => snippet.id == some tid) = true := by
    rw [VB.getSnippets, hst]
    exact List.any_eq_true.mpr
      ⟨s, List.mem_append_right _ (List.mem_cons_self s post), by simp [hsid]⟩
  have hmap : (VB.getSnippets st).map
      (fun snippet =>
        if snippet.id == some tid then { spread snippet upd with updatedAt := some now }
        else snippet)
      = pre ++ { spread s upd with updatedAt := some now } :: post := by
    rw [VB.getSnippets, hst, List.map_append, List.map_cons]
    rw [map_nomatch hpre, map_nomatch hpost]
    congr 2
    rw [if_pos (by simp [hsid])]
  have hB : VB.updateSnippet tid upd now w st
      = VB.saveSnippets (pre ++ { spread s upd with updatedAt := some now } :: post) w st := by
    rw [VB.updateSnippet, hmap, if_pos hfound]
  refine ⟨⟨?_, ?_⟩, ?_⟩
  · rw [hB]
    exact (VB_save_parts _ w st).1
  · refine ⟨{ spread s upd with updatedAt := some now }, ?_, ?_, ?_, rfl, ?_, ?_, ?_, ?_, ?_⟩
    · rw [hB]
      exact (VB_save_parts _ w st).2
    · show mergeField s.id upd.id = s.id
      rw [hid, mergeField_none]
    · show mergeField s.createdAt upd.createdAt = s.createdAt
      rw [hca, mergeField_none]
    · exact mergeField_ite s.title upd.title
    · exact mergeField_ite s.language upd.language
    · exact mergeField_ite s.description upd.description
    · exact mergeField_ite s.code upd.code
    · exact mergeTags_ite s.tags upd.tags
  · intro slot2 w2 hupd
    refine ⟨spread s upd, ?_, ?_, ?_, ?_⟩
    · cases w2 <;>
        simp [VA.updateSnippet, VA._saveSnippets, List.findIdx?, hsid]
    · show mergeField s.id upd.id = s.id
      rw [hid, mergeField_none]
    · show mergeField s.createdAt upd.createdAt = s.createdAt
      rw [hca, mergeField_none]
    · show mergeField s.updatedAt upd.updatedAt = s.updatedAt
      rw [hupd, mergeField_none]

/-- Claim C3, amended, witness: updating the title of a concrete one
record store. -/
theorem c3_amended_witness :
    ((VB.updateSnippet "s1" { title := some "new" } "u1" true
        (Store.mk [{ id := some "s1", title := some "old", createdAt := some "c0" }]
          (Slot.data [{ id := some "s1", title := some "old", createdAt := some "c0" }]))).1
        = true ∧
     ∃ s2, (VB.updateSnippet "s1" { title := some "new" } "u1" true
        (Store.mk [{ id := some "s1", title := some "old", createdAt := some "c0" }]
          (Slot.data [{ id := some "s1", title := some "old", createdAt := some "c0" }]))).2.snippets
          = [] ++ s2 :: [] ∧
       s2.id = some "s1" ∧ s2.createdAt = some "c0" ∧ s2.updatedAt = some "u1" ∧
       s2.title = some "new" ∧ s2.language = (none : Option String) ∧
       s2.description = (none : Option String) ∧ s2.code = (none : Option String) ∧
       s2.tags = TagsField.absent) ∧
    (∀ (slot2 : Slot) (w2 : Bool),
      ({ title := some "new" } : Snippet).updatedAt = none →
      ∃ s3, (VA.updateSnippet "s1" { title := some "new" } w2
          (Store.mk [{ id := some "s1", title := some "old", createdAt := some "c0" }] slot2)).2.snippets
          = [s3] ∧
        s3.id = some "s1" ∧ s3.createdAt = some "c0" ∧
        s3.updatedAt = (none : Option String)) :=
  c3_amended [] [] { id := some "s1", title := some "old", createdAt := some "c0" } "s1"
    { title := some "new" } "u1" true
    (Store.mk [{ id := some "s1", title := some "old", createdAt := some "c0" }]
      (Slot.data [{ id := some "s1", title := some "old", createdAt := some "c0" }]))
    rfl rfl (by simp) (by simp) rfl rfl

theorem isInfixOfCh_iff (n : List Char) : ∀ (h : List Char),
    isInfixOfCh n h = true ↔ n <:+: h := by
  intro h
  induction h with
  | nil => simp [isInfixOfCh, List.isEmpty_iff, List.infix_nil]
  | cons a r ih =>
    show (n.isPrefixOf (a :: r) || isInfixOfCh n r) = true ↔ _
    rw [Bool.or_eq_true, List.isPrefixOf_iff_prefix, ih, List.infix_cons_iff]

theorem textIncludes_iff (o : Option String) (lq : String) :
    textIncludes o lq = true
      ↔ ∃ t, o = some t ∧ t ≠ "" ∧ lq.data <:+: (jsLower t).data := by
  cases o with
  | none => simp [textIncludes, truthy]
  | some t => simp [textIncludes, truthy, jsIncludes, isInfixOfCh_iff]

theorem tagsAnyIncludes_iff (tf : TagsField) (lq : String) (hw : tf ≠ TagsField.notArray) :
    tagsAnyIncludes tf lq = true
      ↔ ∃ ts, tf = TagsField.tags ts ∧ ∃ tag ∈ ts, lq.data <:+: (jsLower tag).data := by
  cases tf with
  | absent => simp [tagsAnyIncludes]
  | notArray => exact absurd rfl hw
  | tags ts => simp [tagsAnyIncludes, jsIncludes, isInfixOfCh_iff]

/-- Claim C8, amended: a snippet whose tags key is absent or an array
is returned by search exactly when the lowercased query is a substring
of its lowercased title, description or code, each considered only
when present and nonempty, or of the lowercase of at least one tag;
in particular the empty query matches only the snippets with some
nonempty searchable field, excluding a snippet all of whose text
fields are empty or absent and which has no tags, as the
counterexample shows. -/
theorem c8_amended (q : String) (st : Store) (s : Snippet) (hw : s.tags ≠ TagsField.notArray) :
    s ∈ VB.searchSnippets q st ↔
      s ∈ st.snippets ∧
      ((∃ t, s.title = some t ∧ t ≠ "" ∧ (jsLower q).data <:+: (jsLower t).data) ∨
       (∃ d, s.description = some d ∧ d ≠ "" ∧ (jsLower q).data <:+: (jsLower d).data) ∨
       (∃ c, s.code = some c ∧ c ≠ "" ∧ (jsLower q).data <:+: (jsLower c).data) ∨
       (∃ ts, s.tags = TagsField.tags ts ∧
          ∃ tag ∈ ts, (jsLower q).data <:+: (jsLower tag).data)) := by
  show s ∈ ((VB.getSnippets st).filter _) ↔ _
  rw [List.mem_filter]
  simp only [VB.getSnippets]
  refine and_congr_right fun _ => ?_
  rw [Bool.or_eq_true, Bool.or_eq_true, Bool.or_eq_true]
  rw [textIncludes_iff, textIncludes_iff, textIncludes_iff, tagsAnyIncludes_iff _ _ hw]
  rw [or_assoc, or_assoc]

/-- Claim C8, amended, witness: a concrete query matching the title of
a concrete snippet. -/
theorem c8_amended_witness :
    ({ id := some "w", title := some "Array" } : Snippet) ∈ VB.searchSnippets "ar"
        (Store.mk [{ id := some "w", title := some "Array" }] (Slot.data [])) ↔
      ({ id := some "w", title := some "Array" } : Snippet)
          ∈ (Store.mk [{ id := some "w", title := some "Array" }] (Slot.data [])).snippets ∧
      ((∃ t, ({ id := some "w", title := some "Array" } : Snippet).title = some t ∧ t ≠ "" ∧
          (jsLower "ar").data <:+: (jsLower t).data) ∨
       (∃ d, ({ id := some "w", title := some "Array" } : Snippet).description = some d ∧ d ≠ "" ∧
          (jsLower "ar").data <:+: (jsLower d).data) ∨
       (∃ c, ({ id := some "w", title := some "Array" } : Snippet).code = some c ∧ c ≠ "" ∧
          (jsLower "ar").data <:+: (jsLower c).data) ∨
       (∃ ts, ({ id := some "w", title := some "Array" } : Snippet).tags = TagsField.tags ts ∧
          ∃ tag ∈ ts, (jsLower "ar").data <:+: (jsLower tag).data)) :=
  c8_amended "ar" (Store.mk [{ id := some "w", title := some "Array" }] (Slot.data []))
    { id := some "w", title := some "Array" } (by decide)
